import Mathlib

/-!
Verification of the secure-chat client cryptographic messaging core.

The embedding follows the client source:
* `src/lib/crypto.ts` — hybrid RSA-OAEP / AES-GCM primitives.  The Web
  Crypto platform primitives are modelled symbolically: an AES key is
  identified by the randomness that generated it, an RSA key pair by its
  modulus, and a ciphertext is a constructor application remembering the
  key material it was produced with.  AEAD decryption succeeds exactly on
  a well-formed ciphertext produced under the same key and nonce, which
  captures the authenticated-encryption contract.  The base64 / UTF-8
  transcoding steps of the source are injective codecs and are modelled
  as the identity on symbolic data.
* `src/hooks/useMessages.ts` — decryption, scope filtering, the poll /
  history synchronisation steps, and the direct / broadcast send paths.
* `src/hooks/useAuth.ts` with `src/lib/storage.ts` — the private-key
  migration from localStorage to IndexedDB.

Store-assigned envelope ids are decimal strings in the source and are
compared numerically by the server (`parseInt`); they are modelled as
naturals.  Timestamps are modelled as naturals (milliseconds).
-/

set_option maxRecDepth 4000

namespace SecureChat

/-- Symbolic wire data: plaintext strings, raw AES key bytes, AES-GCM
ciphertexts (key id, iv, payload) and RSA-OAEP ciphertexts (public-key
modulus, payload). -/
inductive Data where
  | str : String → Data
  | rawAES : Nat → Data
  | aesGcm : Nat → Nat → Data → Data
  | rsaOaep : Nat → Data → Data
deriving DecidableEq, Repr

/-- An AES-256-GCM key, identified by the randomness that generated it
(`crypto.subtle.generateKey` in `generateAESKey`). -/
structure AESKey where
  keyId : Nat
deriving DecidableEq, Repr

/-- An RSA-OAEP public key, identified by its modulus. -/
structure RSAPublicKey where
  modulus : Nat
deriving DecidableEq, Repr

/-- An RSA-OAEP private key, identified by its modulus. -/
structure RSAPrivateKey where
  modulus : Nat
deriving DecidableEq, Repr

/-- A generated key pair (`generateKeyPair` in crypto.ts). -/
structure KeyPair where
  publicKey : RSAPublicKey
  privateKey : RSAPrivateKey
deriving DecidableEq, Repr

/-- `generateKeyPair`: both halves of a freshly generated pair share the
same modulus. -/
def generateKeyPair (fresh : Nat) : KeyPair :=
  { publicKey := { modulus := fresh }, privateKey := { modulus := fresh } }

/-- A key pair is valid when the private key matches the public key. -/
def validKeyPair (kp : KeyPair) : Prop :=
  kp.privateKey.modulus = kp.publicKey.modulus

/-- `generateAESKey`: a fresh one-time AES-GCM key. -/
def generateAESKey (fresh : Nat) : AESKey := { keyId := fresh }

/-- `exportAESKey`: export the AES key to raw bytes. -/
def exportAESKey (key : AESKey) : Data := Data.rawAES key.keyId

/-- `importAESKey`: import an AES key from raw bytes; anything that is
not raw AES key material is rejected by the platform. -/
def importAESKey : Data → Option AESKey
  | Data.rawAES kid => some { keyId := kid }
  | _ => none

/-- Result of `encryptMessage` in crypto.ts: base64 ciphertext and iv. -/
structure EncryptedPayload where
  ciphertext : Data
  iv : Nat
deriving DecidableEq, Repr

/-- `encryptMessage`: AES-GCM encryption of the UTF-8 encoded message
under the key and a 12-byte random iv. -/
def encryptMessage (message : String) (key : AESKey) (iv : Nat) : EncryptedPayload :=
  { ciphertext := Data.aesGcm key.keyId iv (Data.str message), iv := iv }

/-- `decryptMessage`: AES-GCM decryption; the authenticated cipher
succeeds exactly on a well-formed ciphertext produced under the same key
and iv, and fails (throws, modelled as `none`) otherwise. -/
def decryptMessage (ciphertext : Data) (iv : Nat) (key : AESKey) : Option String :=
  match ciphertext with
  | Data.aesGcm kid civ (Data.str m) =>
      if kid = key.keyId ∧ civ = iv then some m else none
  | _ => none

/-- `encryptAESKey`: wrap the exported raw AES key under the recipient
public key with RSA-OAEP. -/
def encryptAESKey (aesKey : AESKey) (publicKey : RSAPublicKey) : Data :=
  Data.rsaOaep publicKey.modulus (exportAESKey aesKey)

/-- `decryptAESKey`: RSA-OAEP unwrap with the private key, then import
the raw AES key; fails on a wrapped key produced under a different
modulus or on malformed data. -/
def decryptAESKey (encryptedKey : Data) (privateKey : RSAPrivateKey) : Option AESKey :=
  match encryptedKey with
  | Data.rsaOaep m payload =>
      if m = privateKey.modulus then importAESKey payload else none
  | _ => none

/-- A stored envelope as fetched by the client (`EncryptedMessage` in
useMessages.ts / api.ts).  `recipientId = none` models the `null` (or
absent) broadcast marker. -/
structure EncryptedMessage where
  id : Nat
  senderId : String
  senderUsername : String
  recipientId : Option String
  encryptedContent : Data
  encryptedKey : Data
  iv : Nat
  timestamp : Nat
deriving DecidableEq, Repr

/-- A decrypted view of an envelope (`DecryptedMessage` in
useMessages.ts). -/
structure DecryptedMessage where
  id : Nat
  senderId : String
  senderUsername : String
  content : String
  timestamp : Nat
  isOwn : Bool
deriving DecidableEq, Repr

/-- JS truthiness of a nullable string: `null`, `undefined` and the
empty string are falsy. -/
def optionFalsy : Option String → Bool
  | none => true
  | some s => s == ""

/-- `decryptSingleMessage` in useMessages.ts: unwrap the AES key with
the own private key, AEAD-decrypt the content, and build the decrypted
view; any failure is caught and mapped to `null` (`none`). -/
def decryptSingleMessage (userId : String) (msg : EncryptedMessage)
    (privKey : RSAPrivateKey) : Option DecryptedMessage :=
  match decryptAESKey msg.encryptedKey privKey with
  | none => none
  | some aesKey =>
    match decryptMessage msg.encryptedContent msg.iv aesKey with
    | none => none
    | some content =>
        some { id := msg.id, senderId := msg.senderId,
               senderUsername := msg.senderUsername, content := content,
               timestamp := msg.timestamp, isOwn := msg.senderId == userId }

/-- The scope filter of `loadHistory` / `pollForMessages`: with a truthy
`recipientId` parameter (direct scope with peer `peer`) an envelope is
kept iff it is from the peer to me, from me to the peer, my self-copy,
or a broadcast-marked envelope from the peer (`!msg.recipientId`, JS
falsy); with a falsy scope (broadcast mode) every envelope is kept. -/
def isVisible (userId : String) (scope : Option String)
    (msg : EncryptedMessage) : Bool :=
  if optionFalsy scope then true
  else
    match scope with
    | none => true
    | some peer =>
        (msg.senderId == peer && msg.recipientId == some userId) ||
        (msg.senderId == userId && msg.recipientId == some peer) ||
        (msg.senderId == userId && msg.recipientId == some userId) ||
        (msg.senderId == peer && optionFalsy msg.recipientId)

/-- The shared per-batch step of `loadHistory` and `pollForMessages`:
decrypt each envelope, drop the ones that fail, and keep the decrypted
view of those passing the scope filter. -/
def processBatch (userId : String) (scope : Option String)
    (privKey : RSAPrivateKey) (batch : List EncryptedMessage) :
    List DecryptedMessage :=
  batch.filterMap (fun msg =>
    match decryptSingleMessage userId msg privKey with
    | none => none
    | some d => if isVisible userId scope msg then some d else none)

/-- One step of the id-keyed `Map` used for deduplication: an existing
entry with the same id is overwritten in place, a new id is appended
(JS `Map` keeps first-insertion order and last value). -/
def upsertById (acc : List DecryptedMessage) (m : DecryptedMessage) :
    List DecryptedMessage :=
  if acc.any (fun x => x.id == m.id) then
    acc.map (fun x => if x.id == m.id then m else x)
  else acc ++ [m]

/-- `new Map(list.map(m => [m.id, m])).values()`: deduplicate by id,
keeping first-insertion order and the last value for each id. -/
def dedupById (l : List DecryptedMessage) : List DecryptedMessage :=
  l.foldl upsertById []

/-- Stable insertion of a message into a timestamp-ascending list: the
new element goes after every element with a timestamp not larger than
its own. -/
def insertByTs (m : DecryptedMessage) : List DecryptedMessage → List DecryptedMessage
  | [] => [m]
  | x :: xs => if x.timestamp ≤ m.timestamp then x :: insertByTs m xs else m :: x :: xs

/-- The `sort((a, b) => a.timestamp - b.timestamp)` of the source: a
stable ascending sort by timestamp (stable sorts agree, so insertion
sort is a faithful model of the JS engine sort). -/
def sortByTimestamp (l : List DecryptedMessage) : List DecryptedMessage :=
  l.foldl (fun acc m => insertByTs m acc) []

/-- The synchroniser's client-local state: the visible decrypted set and
the poll cursor (`lastMessageId`, initially `"0"`). -/
structure SyncState where
  messages : List DecryptedMessage
  lastMessageId : Nat
deriving DecidableEq, Repr

/-- `loadHistory`: decrypt and filter the fetched batch, deduplicate and
sort it, replace the visible set, and set the cursor to the id of the
last fetched envelope when the fetch is non-empty. -/
def loadHistoryStep (userId : String) (scope : Option String)
    (privKey : RSAPrivateKey) (s : SyncState)
    (fetched : List EncryptedMessage) : SyncState :=
  { messages := sortByTimestamp (dedupById (processBatch userId scope privKey fetched)),
    lastMessageId := ((fetched.getLast?).map (fun m => m.id)).getD s.lastMessageId }

/-- `pollForMessages`: on a non-empty batch, decrypt and filter it; only
when at least one envelope survives are the results merged (id-keyed
union, re-sorted) into the visible set and the cursor advanced to the id
of the last fetched envelope. -/
def pollStep (userId : String) (scope : Option String)
    (privKey : RSAPrivateKey) (s : SyncState)
    (newMessages : List EncryptedMessage) : SyncState :=
  if newMessages.isEmpty then s
  else
    let decrypted := processBatch userId scope privKey newMessages
    if decrypted.isEmpty then s
    else
      { messages := sortByTimestamp (dedupById (s.messages ++ decrypted)),
        lastMessageId := ((newMessages.getLast?).map (fun m => m.id)).getD s.lastMessageId }

/-- `api.pollMessages` (api.ts): a failed poll request — thrown network
error or non-OK HTTP status — is caught and an empty batch returned. -/
def pollMessagesApi (resp : Except String (List EncryptedMessage)) :
    List EncryptedMessage :=
  match resp with
  | Except.ok ms => ms
  | Except.error _ => []

/-- One `pollForMessages` call fed by an API response. -/
def pollOnce (userId : String) (scope : Option String)
    (privKey : RSAPrivateKey) (s : SyncState)
    (resp : Except String (List EncryptedMessage)) : SyncState :=
  pollStep userId scope privKey s (pollMessagesApi resp)

/-- One iteration of the polling loop (`poll` in the effect): await the
poll — whose own try/catch swallows every error — then schedule the next
timeout unconditionally.  The boolean records that the next poll is
scheduled. -/
def pollLoopIter (userId : String) (scope : Option String)
    (privKey : RSAPrivateKey) (s : SyncState)
    (resp : Except String (List EncryptedMessage)) : SyncState × Bool :=
  (pollOnce userId scope privKey s resp, true)

/-- A directory identity as returned by `api.getUsers`. -/
structure User where
  id : String
  username : String
  publicKey : String
deriving DecidableEq, Repr

/-- The result object of `sendEncryptedMessage`. -/
structure SendResult where
  success : Bool
  error : Option String
deriving DecidableEq, Repr

/-- The payload handed to `api.sendMessage` — the envelope appended by
the store when the append succeeds. -/
structure OutEnvelope where
  senderId : String
  senderUsername : String
  recipientId : Option String
  encryptedContent : Data
  encryptedKey : Data
  iv : Nat
deriving DecidableEq, Repr

/-- Whether the first character list is a prefix of the second. -/
def hasPrefixChars : List Char → List Char → Bool
  | [], _ => true
  | _ :: _, [] => false
  | a :: as, b :: bs => a == b && hasPrefixChars as bs

/-- Whether the first character list occurs contiguously inside the
second (`String.prototype.includes`). -/
def hasInfixChars (needle : List Char) : List Char → Bool
  | [] => needle.isEmpty
  | b :: bs => hasPrefixChars needle (b :: bs) || hasInfixChars needle bs

/-- `isLikelyPlaceholderKey` in useMessages.ts: a key string is treated
as an unusable placeholder when it is nullish or empty (JS falsy), when
it contains the literal `...` marker, or when, after stripping
whitespace and dashes (the `[\s\r\n-]` character class), fewer than 100
characters remain. -/
def isLikelyPlaceholderKey : Option String → Bool
  | none => true
  | some s =>
      if s == "" then true
      else if hasInfixChars "...".toList s.toList then true
      else if (s.toList.filter (fun c => !(c.isWhitespace || c == '-'))).length < 100 then true
      else false

/-- The per-user task of the broadcast fan-out in
`sendEncryptedMessage`: skip the user before any asymmetric-crypto work
when the key is a likely placeholder; otherwise import the public key
(`getCachedPublicKey`, whose failure is caught per user), wrap the AES
key under it and append one envelope with the broadcast marker
`recipientId: null`.  `importKey` stands for the platform key import and
`appendOk` for the outcome of the `api.sendMessage` append.  The result
is the appended envelope (if any) paired with the reported per-user
success. -/
def broadcastAttempt (importKey : String → Option RSAPublicKey)
    (appendOk : String → Bool) (senderId senderUsername : String)
    (aesKey : AESKey) (ciphertext : Data) (iv : Nat) (user : User) :
    Option OutEnvelope × Bool :=
  if isLikelyPlaceholderKey (some user.publicKey) then (none, false)
  else
    match importKey user.publicKey with
    | none => (none, false)
    | some pub =>
        if appendOk user.id then
          (some { senderId := senderId, senderUsername := senderUsername,
                  recipientId := none, encryptedContent := ciphertext,
                  encryptedKey := encryptAESKey aesKey pub, iv := iv }, true)
        else (none, false)

/-- The broadcast branch of `sendEncryptedMessage`: one attempt per
directory identity, then an all-complete join; the call reports the
distinct no-recipient error when no attempt succeeded and otherwise
`success` iff every attempt succeeded. -/
def broadcastSend (importKey : String → Option RSAPublicKey)
    (appendOk : String → Bool) (senderId senderUsername : String)
    (aesKey : AESKey) (ciphertext : Data) (iv : Nat) (users : List User) :
    List OutEnvelope × SendResult :=
  let attempts := users.map
    (broadcastAttempt importKey appendOk senderId senderUsername aesKey ciphertext iv)
  let appended := attempts.filterMap Prod.fst
  let anySuccess := attempts.any Prod.snd
  let allSuccess := attempts.all Prod.snd
  (appended,
    if anySuccess then { success := allSuccess, error := none }
    else { success := false,
           error := some "No recipients have a valid public key. Ask them to login to refresh keys." })

/-- The direct-message branch of `sendEncryptedMessage`: fail fast when
the recipient is missing or has a placeholder key; otherwise append a
copy wrapped for the recipient (`recipientId := target`) and a copy
wrapped for the sender (`recipientId := userId`), both sharing the same
ciphertext and iv, and report `success` iff both appends succeeded.
`appendOk1` / `appendOk2` are the outcomes of the two `api.sendMessage`
calls; a key-import failure is thrown to the surrounding catch, which
reports a generic failure. -/
def directSend (importKey : String → Option RSAPublicKey)
    (appendOk1 appendOk2 : Bool) (users : List User)
    (userId senderUsername target : String) (aesKey : AESKey)
    (ciphertext : Data) (iv : Nat) : List OutEnvelope × SendResult :=
  match users.find? (fun u => u.id == target) with
  | none => ([], { success := false, error := some "User not found" })
  | some recipient =>
    if isLikelyPlaceholderKey (some recipient.publicKey) then
      ([], { success := false,
             error := some "Recipient public key is invalid/placeholder. Ask them to login to refresh their keys." })
    else
      match users.find? (fun u => u.id == userId) with
      | none => ([], { success := false, error := some "User not found" })
      | some sender =>
        match importKey recipient.publicKey with
        | none => ([], { success := false, error := some "Failed to send message" })
        | some rpub =>
          let env1 : OutEnvelope :=
            { senderId := userId, senderUsername := senderUsername,
              recipientId := some target, encryptedContent := ciphertext,
              encryptedKey := encryptAESKey aesKey rpub, iv := iv }
          let app1 := if appendOk1 then [env1] else []
          match importKey sender.publicKey with
          | none => (app1, { success := false, error := some "Failed to send message" })
          | some spub =>
            let env2 : OutEnvelope :=
              { senderId := userId, senderUsername := senderUsername,
                recipientId := some userId, encryptedContent := ciphertext,
                encryptedKey := encryptAESKey aesKey spub, iv := iv }
            let app2 := if appendOk2 then [env2] else []
            (app1 ++ app2, { success := appendOk1 && appendOk2, error := none })

/-- `createMessage` on the server (database.js) stores
`recipientId: recipientId || null`, so a stored envelope never carries
an empty-string recipient: the falsy empty string is normalised to the
broadcast marker `null`. -/
def serverStoreRecipient (recipientId : Option String) : Option String :=
  if optionFalsy recipientId then none else recipientId

/-- The two private-key locations of useAuth.ts: the IndexedDB secure
store (storage.ts) and the legacy `secure_msg_private_key` localStorage
entry. -/
structure KeyStore where
  idb : Option String
  legacy : Option String
deriving DecidableEq, Repr

/-- The key-migration sequence of `loadSession` (and identically of
`login`) in useAuth.ts, as the list of storage states it passes
through: when the key exists only in the legacy location, first
`storePrivateKey` persists it to IndexedDB, and only then is the legacy
copy removed; otherwise nothing changes. -/
def loadSessionKeyStates (s : KeyStore) : List KeyStore :=
  if s.legacy.isSome && s.idb.isNone then
    [s, { idb := s.legacy, legacy := s.legacy }, { idb := s.legacy, legacy := none }]
  else [s]

/-- Concrete envelope builder used by witnesses: a well-formed envelope
whose AES key of id `aesId` is wrapped under the RSA modulus `keyMod`. -/
def mkEnv (id : Nat) (senderId : String) (recipientId : Option String)
    (keyMod aesId iv ts : Nat) (body : String) : EncryptedMessage :=
  { id := id, senderId := senderId, senderUsername := senderId,
    recipientId := recipientId,
    encryptedContent := Data.aesGcm aesId iv (Data.str body),
    encryptedKey := Data.rsaOaep keyMod (Data.rawAES aesId),
    iv := iv, timestamp := ts }

/-- A 120-character key string that passes the placeholder check. -/
def usableKeyA : String := String.mk (List.replicate 120 'A')

/-- A second usable 120-character key string. -/
def usableKeyB : String := String.mk (List.replicate 120 'B')

/-- Sample identity with the usable key A. -/
def bobU : User := { id := "u2", username := "bob", publicKey := usableKeyA }

/-- Sample identity with the usable key B. -/
def carolU : User := { id := "u3", username := "carol", publicKey := usableKeyB }

/-- Sample identity with a seed-data placeholder key. -/
def daveU : User := { id := "u4", username := "dave", publicKey := "pk..." }

/-- Sample platform key import resolving the two usable key strings. -/
def sampleImportKey : String → Option RSAPublicKey := fun s =>
  if s == usableKeyA then some { modulus := 3 }
  else if s == usableKeyB then some { modulus := 4 }
  else none

end SecureChat

namespace SecureChat

/-- Claim C1: for every plaintext `P` and every valid RSA-OAEP key pair,
hybrid encryption round-trips — generating a fresh AES-GCM key,
encrypting `P` with it (`encryptMessage`), wrapping the AES key under the
public key (`encryptAESKey`), then unwrapping with the private key
(`decryptAESKey`) and AEAD-decrypting (`decryptMessage`) returns exactly
`P`. -/
theorem hybrid_round_trip (P : String) (kp : KeyPair) (h : validKeyPair kp)
    (fresh iv : Nat) :
    (decryptAESKey (encryptAESKey (generateAESKey fresh) kp.publicKey) kp.privateKey).bind
      (fun aesKey =>
        decryptMessage (encryptMessage P (generateAESKey fresh) iv).ciphertext
          (encryptMessage P (generateAESKey fresh) iv).iv aesKey) = some P := by
  simp [decryptAESKey, encryptAESKey, generateAESKey, exportAESKey, importAESKey,
    encryptMessage, decryptMessage, validKeyPair] at h ⊢
  simp [h]

/-- Witness for C1 at a concrete plaintext and key pair. -/
theorem hybrid_round_trip_witness :
    validKeyPair (generateKeyPair 0) ∧
      (decryptAESKey (encryptAESKey (generateAESKey 1) (generateKeyPair 0).publicKey)
            (generateKeyPair 0).privateKey).bind
          (fun aesKey =>
            decryptMessage (encryptMessage "hello" (generateAESKey 1) 2).ciphertext
              (encryptMessage "hello" (generateAESKey 1) 2).iv aesKey) = some "hello" :=
  ⟨rfl, hybrid_round_trip "hello" (generateKeyPair 0) rfl 1 2⟩

theorem mem_insertByTs {a m : DecryptedMessage} {l : List DecryptedMessage} :
    a ∈ insertByTs m l ↔ a = m ∨ a ∈ l := by
  induction l with
  | nil => simp [insertByTs]
  | cons x xs ih =>
      by_cases h : x.timestamp ≤ m.timestamp
      · simp only [insertByTs, h, if_true, List.mem_cons, ih]
        tauto
      · simp only [insertByTs, h, if_false, List.mem_cons]

theorem mem_foldl_insertByTs {a : DecryptedMessage} {l acc : List DecryptedMessage} :
    a ∈ l.foldl (fun acc m => insertByTs m acc) acc ↔ a ∈ acc ∨ a ∈ l := by
  induction l generalizing acc with
  | nil => simp
  | cons x xs ih => rw [List.foldl_cons, ih, mem_insertByTs, List.mem_cons]; tauto

theorem mem_sortByTimestamp {a : DecryptedMessage} {l : List DecryptedMessage} :
    a ∈ sortByTimestamp l ↔ a ∈ l := by
  simp [sortByTimestamp, mem_foldl_insertByTs]

theorem mem_upsertById_self (acc : List DecryptedMessage) (m : DecryptedMessage) :
    m ∈ upsertById acc m := by
  unfold upsertById
  by_cases h : acc.any (fun x => x.id == m.id)
  · rcases List.any_eq_true.mp h with ⟨x, hx, hid⟩
    simp only [h, if_true, List.mem_map]
    exact ⟨x, hx, by simp [hid]⟩
  · simp [h]

theorem dedupById_concat (l : List DecryptedMessage) (m : DecryptedMessage) :
    dedupById (l ++ [m]) = upsertById (dedupById l) m := by
  simp [dedupById, List.foldl_append]

theorem optionFalsy_iff {r : Option String} :
    optionFalsy r = true ↔ r = none ∨ r = some "" := by
  cases r <;> simp [optionFalsy]

/-- Claim C10: a failed poll cycle — the poll request throws or the
server answers with an error status — is caught (`api.pollMessages`
returns an empty batch, and `pollForMessages` swallows every error), so
the visible message set and the cursor are left exactly as they were,
and the polling loop schedules the next poll rather than terminating. -/
theorem poll_error_no_state_change (userId : String) (scope : Option String)
    (privKey : RSAPrivateKey) (s : SyncState) (e : String) :
    pollLoopIter userId scope privKey s (Except.error e) = (s, true) := by
  simp [pollLoopIter, pollOnce, pollMessagesApi, pollStep]

/-- Claim C2 counterexample: a poll that fetches one envelope of id 5
that does not decrypt under the own private key (it is wrapped under a
different modulus) leaves the cursor at 0 instead of advancing it to 5,
the maximum id observed — `pollForMessages` only updates
`lastMessageId` when at least one envelope decrypts and passes the
scope filter. -/
theorem cursor_not_advanced_on_undecryptable_batch :
    (pollOnce "u1" none { modulus := 0 } { messages := [], lastMessageId := 0 }
        (Except.ok [mkEnv 5 "p" none 1 0 0 10 "m"])).lastMessageId ≠ 5 := by
  decide

/-- Claim C2 (amended): the cursor never decreases across
`pollForMessages` calls given the server contract that fetched
envelopes carry ids above the cursor; it advances to the id of the last
(maximum) fetched envelope exactly when at least one envelope of the
batch decrypts and passes the scope filter, and is left unchanged
otherwise — in particular on an empty batch or a batch whose envelopes
all fail to decrypt or are filtered out; `loadHistory` sets it to the
last fetched id whenever the fetch is non-empty and keeps it otherwise. -/
theorem cursor_monotone_and_batch_advance (userId : String)
    (scope : Option String) (privKey : RSAPrivateKey) (s : SyncState)
    (batch fetched : List EncryptedMessage)
    (h : ∀ m ∈ batch, s.lastMessageId ≤ m.id) :
    s.lastMessageId ≤ (pollStep userId scope privKey s batch).lastMessageId ∧
    (processBatch userId scope privKey batch = [] →
      (pollStep userId scope privKey s batch).lastMessageId = s.lastMessageId) ∧
    (∀ mlast, batch.getLast? = some mlast →
      processBatch userId scope privKey batch ≠ [] →
      (pollStep userId scope privKey s batch).lastMessageId = mlast.id) ∧
    (∀ mh, fetched.getLast? = some mh →
      (loadHistoryStep userId scope privKey s fetched).lastMessageId = mh.id) ∧
    (fetched = [] →
      (loadHistoryStep userId scope privKey s fetched).lastMessageId = s.lastMessageId) := by
  refine ⟨?_, ?_, ?_, ?_, ?_⟩
  · unfold pollStep
    by_cases hb : batch.isEmpty
    · simp [hb]
    · simp only [hb, if_false]
      by_cases hd : (processBatch userId scope privKey batch).isEmpty
      · simp [hd]
      · simp only [hd, if_false]
        rcases hl : batch.getLast? with _ | mlast
        · simp
        · have hmem : mlast ∈ batch := List.mem_of_mem_getLast? hl
          simpa [hl] using h mlast hmem
  · intro hp
    unfold pollStep
    by_cases hb : batch.isEmpty <;> simp [hb, hp]
  · intro mlast hl hp
    unfold pollStep
    have hb : batch.isEmpty = false := by
      cases batch with
      | nil => simp at hl
      | cons x xs => simp
    have hd : (processBatch userId scope privKey batch).isEmpty = false := by
      simp [List.isEmpty_iff, hp]
    simp [hb, hd, hl]
  · intro mh hl
    simp [loadHistoryStep, hl]
  · intro hf
    simp [loadHistoryStep, hf]

/-- Witness for the amended C2 at a concrete decryptable batch and a
concrete history fetch. -/
theorem cursor_monotone_and_batch_advance_witness :
    (∀ m ∈ [mkEnv 4 "p" none 0 7 1 20 "hi"],
        ({ messages := [], lastMessageId := 2 } : SyncState).lastMessageId ≤ m.id) ∧
    ((0 : Nat) ≤ (pollStep "me" none { modulus := 0 }
        { messages := [], lastMessageId := 2 }
        [mkEnv 4 "p" none 0 7 1 20 "hi"]).lastMessageId → True) ∧
    (∀ mlast, [mkEnv 4 "p" none 0 7 1 20 "hi"].getLast? = some mlast →
      processBatch "me" none { modulus := 0 } [mkEnv 4 "p" none 0 7 1 20 "hi"] ≠ [] →
      (pollStep "me" none { modulus := 0 } { messages := [], lastMessageId := 2 }
        [mkEnv 4 "p" none 0 7 1 20 "hi"]).lastMessageId = mlast.id) := by
  refine ⟨by decide, fun _ => trivial, ?_⟩
  exact (cursor_monotone_and_batch_advance "me" none { modulus := 0 }
    { messages := [], lastMessageId := 2 } [mkEnv 4 "p" none 0 7 1 20 "hi"] []
    (by decide)).2.2.1

/-- Claim C7: an envelope whose wrapped key or ciphertext fails to
decrypt under the own private key is silently dropped from the batch
result (its decryption is caught and mapped to `null`), and its
presence changes nothing about the decryption or visibility of the
other envelopes of the batch. -/
theorem decrypt_failure_isolated (userId : String) (scope : Option String)
    (privKey : RSAPrivateKey) (xs ys : List EncryptedMessage)
    (e : EncryptedMessage)
    (he : decryptSingleMessage userId e privKey = none) :
    processBatch userId scope privKey (xs ++ e :: ys) =
      processBatch userId scope privKey (xs ++ ys) := by
  simp [processBatch, List.filterMap_append, List.filterMap_cons, he]

/-- Witness for C7: a batch holding one decryptable envelope around an
undecryptable one yields the same result as without it. -/
theorem decrypt_failure_isolated_witness :
    decryptSingleMessage "me" (mkEnv 2 "p" none 9 0 0 5 "x") { modulus := 0 } = none ∧
    processBatch "me" none { modulus := 0 }
        ([mkEnv 1 "p" none 0 3 1 4 "a"] ++ mkEnv 2 "p" none 9 0 0 5 "x" :: [mkEnv 3 "p" none 0 6 2 6 "b"]) =
      processBatch "me" none { modulus := 0 }
        ([mkEnv 1 "p" none 0 3 1 4 "a"] ++ [mkEnv 3 "p" none 0 6 2 6 "b"]) :=
  ⟨by decide, decrypt_failure_isolated "me" none { modulus := 0 }
    [mkEnv 1 "p" none 0 3 1 4 "a"] [mkEnv 3 "p" none 0 6 2 6 "b"]
    (mkEnv 2 "p" none 9 0 0 5 "x") (by decide)⟩

theorem isVisible_direct_iff (self peer : String) (e : EncryptedMessage)
    (hpeer : peer ≠ "") (hrec : e.recipientId ≠ some "") :
    isVisible self (some peer) e = true ↔
      (e.senderId = peer ∧ e.recipientId = some self) ∨
      (e.senderId = self ∧ e.recipientId = some peer) ∨
      (e.senderId = self ∧ e.recipientId = some self) ∨
      (e.senderId = peer ∧ e.recipientId = none) := by
  have hp : optionFalsy (some peer) = false := by
    simp [optionFalsy, hpeer]
  have hr : optionFalsy e.recipientId = true ↔ e.recipientId = none := by
    constructor
    · intro h
      rcases optionFalsy_iff.mp h with h | h
      · exact h
      · exact absurd h hrec
    · intro h
      rw [h]; rfl
  simp only [isVisible, hp, Bool.false_eq_true, if_false, Bool.or_eq_true,
    Bool.and_eq_true, beq_iff_eq, hr]
  tauto

/-- Claim C6: a decryptable envelope is visible in the direct scope with
peer `peer` (own id `self`) iff it is from the peer to me, from me to
the peer, my self-addressed copy, or from the peer with the broadcast
marker `null` as recipient; in broadcast scope every decryptable
envelope is visible regardless of its recipient.  (The hypotheses
restrict to non-empty peer ids and to envelopes as the server stores
them — `createMessage` normalises a falsy recipient to `null`, so a
stored recipient is never the empty string.) -/
theorem scope_visibility_spec (self peer : String) (privKey : RSAPrivateKey)
    (e : EncryptedMessage) (d : DecryptedMessage)
    (hpeer : peer ≠ "") (hrec : e.recipientId ≠ some "")
    (hd : decryptSingleMessage self e privKey = some d) :
    (d ∈ processBatch self (some peer) privKey [e] ↔
      (e.senderId = peer ∧ e.recipientId = some self) ∨
      (e.senderId = self ∧ e.recipientId = some peer) ∨
      (e.senderId = self ∧ e.recipientId = some self) ∨
      (e.senderId = peer ∧ e.recipientId = none)) ∧
    d ∈ processBatch self none privKey [e] := by
  constructor
  · rw [← isVisible_direct_iff self peer e hpeer hrec]
    simp only [processBatch, List.filterMap_cons, List.filterMap_nil, hd]
    by_cases hv : isVisible self (some peer) e <;> simp [hv]
  · simp [processBatch, List.filterMap_cons, hd, isVisible, optionFalsy]

/-- Witness for C6: a direct envelope from peer "p" to "me" is visible
in the direct scope with "p" and in broadcast scope. -/
theorem scope_visibility_spec_witness :
    ("p" : String) ≠ "" ∧
    (mkEnv 1 "p" (some "me") 0 3 1 4 "a").recipientId ≠ some "" ∧
    decryptSingleMessage "me" (mkEnv 1 "p" (some "me") 0 3 1 4 "a") { modulus := 0 } =
      some { id := 1, senderId := "p", senderUsername := "p", content := "a",
             timestamp := 4, isOwn := false } ∧
    ({ id := 1, senderId := "p", senderUsername := "p", content := "a",
       timestamp := 4, isOwn := false } : DecryptedMessage) ∈
      processBatch "me" (some "p") { modulus := 0 } [mkEnv 1 "p" (some "me") 0 3 1 4 "a"] := by
  refine ⟨by decide, by decide, by decide, ?_⟩
  exact ((scope_visibility_spec "me" "p" { modulus := 0 }
      (mkEnv 1 "p" (some "me") 0 3 1 4 "a")
      { id := 1, senderId := "p", senderUsername := "p", content := "a",
        timestamp := 4, isOwn := false }
      (by decide) (by decide) (by decide)).1).mpr (by decide)

/-- Claim C8 counterexample: the synchroniser's scope changes from the
direct scope with peer "p" to the direct scope with peer "q"
(`loadHistory` replaces the visible set for the new scope); a poll that
was issued for the old scope and is still in flight then resolves, and
its result — an envelope from "p" that is not visible under the new
scope — is merged into the new scope's visible set: the resolution
closure filters under the scope captured at issue time and performs no
stale-scope check on arrival. -/
theorem stale_scope_poll_merged :
    ({ id := 2, senderId := "p", senderUsername := "p", content := "hi",
       timestamp := 5, isOwn := false } : DecryptedMessage) ∈
      (pollStep "me" (some "p") { modulus := 0 }
          (loadHistoryStep "me" (some "q") { modulus := 0 }
            { messages := [], lastMessageId := 0 } [])
          [mkEnv 2 "p" (some "me") 0 7 3 5 "hi"]).messages ∧
    isVisible "me" (some "q") (mkEnv 2 "p" (some "me") 0 7 3 5 "hi") = false := by
  decide

/-- Claim C8 (amended): clearing the polling timeout on a scope change
only prevents future polls from being issued; an in-flight poll is not
tagged with the scope it was issued for, and on arrival its batch —
decrypted and filtered under the superseded scope — is merged into
whatever visible set the new scope has built: every envelope of the
batch that decrypts and passes the old scope's filter ends up in the
current visible set. -/
theorem stale_poll_results_merged (userId : String) (scopeOld : Option String)
    (privKey : RSAPrivateKey) (s : SyncState) (e : EncryptedMessage)
    (d : DecryptedMessage)
    (hd : decryptSingleMessage userId e privKey = some d)
    (hv : isVisible userId scopeOld e = true) :
    d ∈ (pollStep userId scopeOld privKey s [e]).messages := by
  have hb : processBatch userId scopeOld privKey [e] = [d] := by
    simp [processBatch, List.filterMap_cons, hd, hv]
  have hstep : pollStep userId scopeOld privKey s [e] =
      { messages := sortByTimestamp (dedupById (s.messages ++ [d])),
        lastMessageId := e.id } := by
    simp [pollStep, hb]
  rw [hstep]
  show d ∈ sortByTimestamp (dedupById (s.messages ++ [d]))
  rw [mem_sortByTimestamp, dedupById_concat]
  exact mem_upsertById_self _ d

/-- Witness for the amended C8 at a concrete stale poll resolving after
a scope change. -/
theorem stale_poll_results_merged_witness :
    decryptSingleMessage "me" (mkEnv 9 "p" (some "me") 0 4 2 7 "late") { modulus := 0 } =
      some { id := 9, senderId := "p", senderUsername := "p", content := "late",
             timestamp := 7, isOwn := false } ∧
    isVisible "me" (some "p") (mkEnv 9 "p" (some "me") 0 4 2 7 "late") = true ∧
    ({ id := 9, senderId := "p", senderUsername := "p", content := "late",
       timestamp := 7, isOwn := false } : DecryptedMessage) ∈
      (pollStep "me" (some "p") { modulus := 0 }
          { messages := [], lastMessageId := 3 }
          [mkEnv 9 "p" (some "me") 0 4 2 7 "late"]).messages :=
  ⟨by decide, by decide,
    stale_poll_results_merged "me" (some "p") { modulus := 0 }
      { messages := [], lastMessageId := 3 }
      (mkEnv 9 "p" (some "me") 0 4 2 7 "late")
      { id := 9, senderId := "p", senderUsername := "p", content := "late",
        timestamp := 7, isOwn := false } (by decide) (by decide)⟩

/-- Claim C9: when the private key exists only in the legacy
localStorage location at load or login, the migration first re-persists
it to the IndexedDB secure store and only then removes the legacy copy,
so every intermediate storage state keeps the key recoverable from at
least one of the two locations. -/
theorem key_migration_store_then_remove (s : KeyStore) (k : String)
    (h1 : s.idb = none) (h2 : s.legacy = some k) :
    loadSessionKeyStates s =
      [s, { idb := some k, legacy := some k }, { idb := some k, legacy := none }] ∧
    ∀ st ∈ loadSessionKeyStates s, st.idb = some k ∨ st.legacy = some k := by
  obtain ⟨i, l⟩ := s
  simp only at h1 h2
  subst h1; subst h2
  refine ⟨by simp [loadSessionKeyStates], ?_⟩
  intro st hst
  simp [loadSessionKeyStates] at hst
  rcases hst with h | h | h <;> subst h <;> simp

/-- Witness for C9 at a concrete legacy-only storage state. -/
theorem key_migration_store_then_remove_witness :
    ({ idb := none, legacy := some "pk" } : KeyStore).idb = none ∧
    loadSessionKeyStates { idb := none, legacy := some "pk" } =
      [{ idb := none, legacy := some "pk" },
       { idb := some "pk", legacy := some "pk" },
       { idb := some "pk", legacy := none }] :=
  ⟨rfl, (key_migration_store_then_remove { idb := none, legacy := some "pk" } "pk"
    rfl rfl).1⟩

theorem broadcastAttempt_fst_isSome_iff_snd (importKey : String → Option RSAPublicKey)
    (appendOk : String → Bool) (senderId senderUsername : String) (aesKey : AESKey)
    (ciphertext : Data) (iv : Nat) (user : User) :
    (broadcastAttempt importKey appendOk senderId senderUsername aesKey ciphertext iv user).1.isSome =
      (broadcastAttempt importKey appendOk senderId senderUsername aesKey ciphertext iv user).2 := by
  by_cases h1 : isLikelyPlaceholderKey (some user.publicKey)
  · simp [broadcastAttempt, h1]
  · cases h2 : importKey user.publicKey with
    | none => simp [broadcastAttempt, h1, h2]
    | some pub =>
        by_cases h3 : appendOk user.id <;> simp [broadcastAttempt, h1, h2, h3]

theorem broadcastSend_appended_eq (importKey : String → Option RSAPublicKey)
    (appendOk : String → Bool) (senderId senderUsername : String) (aesKey : AESKey)
    (ciphertext : Data) (iv : Nat) (users : List User)
    (hA : ∀ u ∈ users, appendOk u.id = true)
    (hI : ∀ u ∈ users, isLikelyPlaceholderKey (some u.publicKey) = false →
      (importKey u.publicKey).isSome) :
    (broadcastSend importKey appendOk senderId senderUsername aesKey ciphertext iv users).1 =
      (users.filter (fun u => !(isLikelyPlaceholderKey (some u.publicKey)))).map
        (fun u =>
          { senderId := senderId, senderUsername := senderUsername,
            recipientId := none, encryptedContent := ciphertext,
            encryptedKey := encryptAESKey aesKey ((importKey u.publicKey).getD { modulus := 0 }),
            iv := iv }) := by
  simp only [broadcastSend]
  induction users with
  | nil => simp
  | cons u rest ih =>
      have hAu := hA u (List.mem_cons_self u rest)
      have hArest : ∀ v ∈ rest, appendOk v.id = true :=
        fun v hv => hA v (List.mem_cons_of_mem u hv)
      have hIrest : ∀ v ∈ rest, isLikelyPlaceholderKey (some v.publicKey) = false →
          (importKey v.publicKey).isSome :=
        fun v hv => hI v (List.mem_cons_of_mem u hv)
      by_cases hp : isLikelyPlaceholderKey (some u.publicKey)
      · have hatt : broadcastAttempt importKey appendOk senderId senderUsername aesKey ciphertext iv u =
            (none, false) := by
          simp [broadcastAttempt, hp]
        simp only [List.map_cons, List.filterMap_cons, hatt, List.filter_cons, hp,
          Bool.not_true, Bool.false_eq_true, if_false]
        exact ih hArest hIrest
      · obtain ⟨pub, hpub⟩ := Option.isSome_iff_exists.mp
          (hI u (List.mem_cons_self u rest) (by simpa using hp))
        have hatt : broadcastAttempt importKey appendOk senderId senderUsername aesKey ciphertext iv u =
            (some { senderId := senderId, senderUsername := senderUsername,
                    recipientId := none, encryptedContent := ciphertext,
                    encryptedKey := encryptAESKey aesKey pub, iv := iv }, true) := by
          simp [broadcastAttempt, hp, hpub, hAu]
        simp only [List.map_cons, List.filterMap_cons, hatt, List.filter_cons, hp,
          Bool.not_false, if_true, hpub, Option.getD_some, List.map_cons]
        exact congrArg _ (ih hArest hIrest)

/-- Claim C3 counterexample: a broadcast to a single identity with a
usable key appends one envelope, but that envelope is not addressed to
the identity — the broadcast branch of `sendEncryptedMessage` sends
every copy with `recipientId: null`, not with the recipient's id. -/
theorem broadcast_envelope_not_addressed_to_identity :
    ¬ (∀ env ∈ (broadcastSend sampleImportKey (fun _ => true) "u1" "alice"
          { keyId := 9 } (Data.aesGcm 9 4 (Data.str "hi")) 4 [bobU]).1,
        env.recipientId = some "u2") := by
  decide

/-- Claim C3 (amended): a broadcast with N identities holding usable
keys and M holding placeholder keys appends exactly N envelopes — the
unusable identities are skipped before any wrap — all sharing the same
ciphertext and iv, each wrapped under the corresponding identity's
imported public key (hence pairwise distinct wrapped keys when the
imported keys are pairwise distinct); but every appended envelope
carries the broadcast marker `recipientId = null` rather than the
identity's id.  (Hypotheses: every usable key imports and every append
succeeds.) -/
theorem broadcast_fanout_shape (importKey : String → Option RSAPublicKey)
    (appendOk : String → Bool) (senderId senderUsername : String) (aesKey : AESKey)
    (ciphertext : Data) (iv : Nat) (users : List User)
    (hA : ∀ u ∈ users, appendOk u.id = true)
    (hI : ∀ u ∈ users, isLikelyPlaceholderKey (some u.publicKey) = false →
      (importKey u.publicKey).isSome)
    (hD : ((users.filter (fun u => !(isLikelyPlaceholderKey (some u.publicKey)))).map
        (fun u => ((importKey u.publicKey).getD { modulus := 0 }).modulus)).Pairwise (· ≠ ·)) :
    (broadcastSend importKey appendOk senderId senderUsername aesKey ciphertext iv users).1.length =
      (users.filter (fun u => !(isLikelyPlaceholderKey (some u.publicKey)))).length ∧
    (∀ env ∈ (broadcastSend importKey appendOk senderId senderUsername aesKey ciphertext iv users).1,
      env.encryptedContent = ciphertext ∧ env.iv = iv ∧ env.recipientId = none ∧
      ∃ u ∈ users.filter (fun u => !(isLikelyPlaceholderKey (some u.publicKey))),
        env.encryptedKey = encryptAESKey aesKey ((importKey u.publicKey).getD { modulus := 0 })) ∧
    (broadcastSend importKey appendOk senderId senderUsername aesKey ciphertext iv users).1.Pairwise
      (fun a b => a.encryptedKey ≠ b.encryptedKey) := by
  rw [broadcastSend_appended_eq importKey appendOk senderId senderUsername aesKey
    ciphertext iv users hA hI]
  refine ⟨List.length_map _ _, ?_, ?_⟩
  · intro env henv
    rcases List.mem_map.mp henv with ⟨u, hu, hequ⟩
    subst hequ
    exact ⟨rfl, rfl, rfl, u, hu, rfl⟩
  · rw [List.pairwise_map]
    rw [List.pairwise_map] at hD
    refine hD.imp ?_
    intro a b hne
    simp only [encryptAESKey, ne_eq, Data.rsaOaep.injEq, not_and]
    intro hmod
    exact absurd hmod hne

/-- Witness for the amended C3: two usable identities and one
placeholder identity yield exactly two broadcast-marked envelopes with
distinct wrapped keys. -/
theorem broadcast_fanout_shape_witness :
    (broadcastSend sampleImportKey (fun _ => true) "u1" "alice" { keyId := 9 }
        (Data.aesGcm 9 4 (Data.str "hi")) 4 [bobU, carolU, daveU]).1.length =
      ([bobU, carolU, daveU].filter
        (fun u => !(isLikelyPlaceholderKey (some u.publicKey)))).length :=
  (broadcast_fanout_shape sampleImportKey (fun _ => true) "u1" "alice" { keyId := 9 }
    (Data.aesGcm 9 4 (Data.str "hi")) 4 [bobU, carolU, daveU]
    (by decide) (by decide) (by decide)).1

/-- Claim C4 counterexample: a broadcast to one usable identity and one
placeholder identity appends an envelope, yet the call reports
`success: false` — the source returns `success: allSuccess`, and the
skipped identity contributes a failed result, so "success iff at least
one envelope was appended" is false, and nothing in the result
identifies skipped versus failed recipients. -/
theorem broadcast_partial_reported_as_failure :
    (broadcastSend sampleImportKey (fun _ => true) "u1" "alice" { keyId := 9 }
        (Data.aesGcm 9 4 (Data.str "hi")) 4 [bobU, daveU]).1 ≠ [] ∧
    (broadcastSend sampleImportKey (fun _ => true) "u1" "alice" { keyId := 9 }
        (Data.aesGcm 9 4 (Data.str "hi")) 4 [bobU, daveU]).2.success = false := by
  decide

/-- Claim C4 (amended): the broadcast result reports success iff every
identity's per-recipient task succeeded (usable key, successful import,
successful append) — equivalently, iff at least one envelope was
appended and no task failed; when no envelope was appended at all the
call reports the distinct no-valid-recipient error; otherwise the error
field is empty, so a partial outcome is reported as a bare failure
without identifying which recipients were skipped versus which appends
failed. -/
theorem broadcast_result_reporting (importKey : String → Option RSAPublicKey)
    (appendOk : String → Bool) (senderId senderUsername : String) (aesKey : AESKey)
    (ciphertext : Data) (iv : Nat) (users : List User) :
    ((broadcastSend importKey appendOk senderId senderUsername aesKey ciphertext iv users).2.success = true ↔
      ((broadcastSend importKey appendOk senderId senderUsername aesKey ciphertext iv users).1 ≠ [] ∧
        ∀ u ∈ users,
          (broadcastAttempt importKey appendOk senderId senderUsername aesKey ciphertext iv u).2 = true)) ∧
    ((broadcastSend importKey appendOk senderId senderUsername aesKey ciphertext iv users).1 = [] →
      (broadcastSend importKey appendOk senderId senderUsername aesKey ciphertext iv users).2 =
        { success := false,
          error := some "No recipients have a valid public key. Ask them to login to refresh keys." }) ∧
    ((broadcastSend importKey appendOk senderId senderUsername aesKey ciphertext iv users).1 ≠ [] →
      (broadcastSend importKey appendOk senderId senderUsername aesKey ciphertext iv users).2.error = none) := by
  have hiff : ∀ p ∈ users.map (broadcastAttempt importKey appendOk senderId
      senderUsername aesKey ciphertext iv), p.1.isSome = p.2 := by
    intro p hp
    rcases List.mem_map.mp hp with ⟨u, _, hequ⟩
    subst hequ
    exact broadcastAttempt_fst_isSome_iff_snd importKey appendOk senderId
      senderUsername aesKey ciphertext iv u
  have happ : (broadcastSend importKey appendOk senderId senderUsername aesKey
      ciphertext iv users).1 =
      (users.map (broadcastAttempt importKey appendOk senderId senderUsername
        aesKey ciphertext iv)).filterMap Prod.fst := rfl
  have hnil : (broadcastSend importKey appendOk senderId senderUsername aesKey
      ciphertext iv users).1 = [] ↔
      (users.map (broadcastAttempt importKey appendOk senderId senderUsername
        aesKey ciphertext iv)).any Prod.snd = false := by
    rw [happ, List.filterMap_eq_nil_iff, List.any_eq_false]
    constructor
    · intro hall p hp
      have hiso := hiff p hp
      rw [hall p hp] at hiso
      simp [← hiso]
    · intro hall p hp
      have hiso := hiff p hp
      have h2 : p.2 = false := by
        cases hq : p.2
        · rfl
        · exact absurd hq (hall p hp)
      rw [h2] at hiso
      exact Option.not_isSome_iff_eq_none.mp (by simp [hiso])
  by_cases hany : (users.map (broadcastAttempt importKey appendOk senderId
      senderUsername aesKey ciphertext iv)).any Prod.snd = true
  · have hne : (broadcastSend importKey appendOk senderId senderUsername aesKey
        ciphertext iv users).1 ≠ [] := by
      intro hx
      rw [hnil.mp hx] at hany
      exact absurd hany (by simp)
    have hres : (broadcastSend importKey appendOk senderId senderUsername aesKey
        ciphertext iv users).2 =
        { success := (users.map (broadcastAttempt importKey appendOk senderId
            senderUsername aesKey ciphertext iv)).all Prod.snd, error := none } := by
      show (if (users.map (broadcastAttempt importKey appendOk senderId senderUsername
          aesKey ciphertext iv)).any Prod.snd then _ else _) = _
      rw [if_pos hany]
    refine ⟨?_, fun hx => absurd hx hne, fun _ => by rw [hres]⟩
    rw [hres]
    simp only [List.all_eq_true, List.mem_map]
    constructor
    · intro hall
      refine ⟨hne, fun u hu => hall _ ⟨u, hu, rfl⟩⟩
    · rintro ⟨_, hall⟩ p ⟨u, hu, hequ⟩
      subst hequ
      exact hall u hu
  · have hany' : (users.map (broadcastAttempt importKey appendOk senderId
        senderUsername aesKey ciphertext iv)).any Prod.snd = false := by
      cases hq : (users.map (broadcastAttempt importKey appendOk senderId
        senderUsername aesKey ciphertext iv)).any Prod.snd
      · rfl
      · exact absurd hq hany
    have hnl : (broadcastSend importKey appendOk senderId senderUsername aesKey
        ciphertext iv users).1 = [] := hnil.mpr hany'
    have hres : (broadcastSend importKey appendOk senderId senderUsername aesKey
        ciphertext iv users).2 =
        { success := false,
          error := some "No recipients have a valid public key. Ask them to login to refresh keys." } := by
      show (if (users.map (broadcastAttempt importKey appendOk senderId senderUsername
          aesKey ciphertext iv)).any Prod.snd then _ else _) = _
      rw [hany', if_neg (by simp)]
    refine ⟨?_, fun _ => hres, fun hx => absurd hnl hx⟩
    rw [hres]
    simp only [Bool.false_eq_true, false_iff, not_and]
    intro hx
    exact absurd hnl hx

/-- Claim C5: a direct send to a recipient with a usable key (and both
parties in the directory with importable keys) attempts exactly two
envelopes sharing the same ciphertext and iv — one with
`recipientId = target` wrapped under the recipient's public key, one
with `recipientId = userId` wrapped under the sender's own public key —
reports success iff both appends succeeded, and reports a partial
append (exactly one copy persisted) as failure. -/
theorem direct_send_dual_copy (importKey : String → Option RSAPublicKey)
    (a1 a2 : Bool) (users : List User) (userId senderUsername target : String)
    (aesKey : AESKey) (ciphertext : Data) (iv : Nat) (R S : User)
    (rpub spub : RSAPublicKey)
    (hR : users.find? (fun u => u.id == target) = some R)
    (hRp : isLikelyPlaceholderKey (some R.publicKey) = false)
    (hS : users.find? (fun u => u.id == userId) = some S)
    (hr : importKey R.publicKey = some rpub)
    (hs : importKey S.publicKey = some spub) :
    (directSend importKey a1 a2 users userId senderUsername target aesKey ciphertext iv).2.success =
      (a1 && a2) ∧
    (directSend importKey a1 a2 users userId senderUsername target aesKey ciphertext iv).1 =
      (if a1 then
        [{ senderId := userId, senderUsername := senderUsername,
           recipientId := some target, encryptedContent := ciphertext,
           encryptedKey := encryptAESKey aesKey rpub, iv := iv }] else []) ++
      (if a2 then
        [{ senderId := userId, senderUsername := senderUsername,
           recipientId := some userId, encryptedContent := ciphertext,
           encryptedKey := encryptAESKey aesKey spub, iv := iv }] else []) ∧
    (a1 ≠ a2 →
      (directSend importKey a1 a2 users userId senderUsername target aesKey ciphertext iv).2.success = false ∧
      (directSend importKey a1 a2 users userId senderUsername target aesKey ciphertext iv).1.length = 1) := by
  have hd : directSend importKey a1 a2 users userId senderUsername target aesKey ciphertext iv =
      ((if a1 then
          [{ senderId := userId, senderUsername := senderUsername,
             recipientId := some target, encryptedContent := ciphertext,
             encryptedKey := encryptAESKey aesKey rpub, iv := iv }] else []) ++
        (if a2 then
          [{ senderId := userId, senderUsername := senderUsername,
             recipientId := some userId, encryptedContent := ciphertext,
             encryptedKey := encryptAESKey aesKey spub, iv := iv }] else []),
        { success := a1 && a2, error := none }) := by
    simp [directSend, hR, hRp, hS, hr, hs]
  rw [hd]
  refine ⟨rfl, rfl, ?_⟩
  intro hne
  cases a1 <;> cases a2 <;> simp_all

/-- Witness for C5: a concrete direct send from carol ("u3") to bob
("u2") with both appends succeeding. -/
theorem direct_send_dual_copy_witness :
    ([bobU, carolU].find? (fun u => u.id == "u2") = some bobU) ∧
    (directSend sampleImportKey true true [bobU, carolU] "u3" "carol" "u2"
        { keyId := 9 } (Data.aesGcm 9 4 (Data.str "secret")) 4).2.success = (true && true) :=
  ⟨by decide,
    (direct_send_dual_copy sampleImportKey true true [bobU, carolU] "u3" "carol" "u2"
      { keyId := 9 } (Data.aesGcm 9 4 (Data.str "secret")) 4 bobU carolU
      { modulus := 3 } { modulus := 4 }
      (by decide) (by decide) (by decide) (by decide) (by decide)).1⟩

end SecureChat
